import Mathlib

/-!
Verification development for the refactoring-analysis backend.

The definitions below are shallow embeddings of the analysis pipeline:

* `AstAnalyzer` — element mapper and diff engine (`src/analyzers/astAnalyzer.js`):
  `levenshteinDistance`, `calculateSimilarity`, `findBestMatch`, `mapElements`,
  `computeASTChanges`, `computeDiffs`;
* `RefactorClassifier` — the signature library and `classify`
  (`src/analyzers/refactorClassifier.js`, class `RefactorClassifier`);
* `SecurityScanner` — `scan` / `deduplicateFlags`
  (`src/analyzers/refactorClassifier.js`, class `SecurityScanner`);
* `ImpactScorer` — metric normalisation, `calculateOverallScore`,
  `determineLevel` (`src/analyzers/impactScorer.js`).

Numbers are modelled exactly: JavaScript numeric scores that stay rational
are embedded as `ℚ`; the two logistic normalisers of the impact scorer use
`ℝ` with `Real.exp`.  External collaborators (the tree-sitter parsers and
the `diff` npm package) are not part of the repository: parsed trees are
plain inputs of type `Node`, and the two `diff`-library functions consumed
by `computeDiffs` are explicit function parameters.
-/

namespace RefactorLens

/-- Normalized node metadata (`extractMetadata`).  Only the fields the
analysis pipeline ever reads are kept: `name`, `parameters` and `imports`
(the remaining fields of the JS object — `returnType`, `modifiers`,
`annotations`, `dependencies` — are initialised to constants and never
written by any extractor, so structural equality of this record coincides
with the `JSON.stringify` comparison used by `areNodesEquivalent`). -/
structure Metadata where
  name : Option String
  parameters : List String
  imports : List String
deriving DecidableEq, Repr

/-- A normalized syntax-tree node (`normalizeAST`): kind string, source
text, metadata and ordered children.  Positions and the language tag are
never consulted by the mapper/diff/classifier code and are omitted. -/
inductive Node where
  | mk (type : String) (text : String) (metadata : Metadata) (children : List Node)
deriving Repr

namespace Node

def type : Node → String
  | .mk t _ _ _ => t

def text : Node → String
  | .mk _ x _ _ => x

def metadata : Node → Metadata
  | .mk _ _ m _ => m

def children : Node → List Node
  | .mk _ _ _ cs => cs

end Node

-- Structural node equality (models JavaScript object identity for the
-- trees handled here: every concrete tree in this development has pairwise
-- structurally-distinct nodes, so identity and structure agree).
mutual

def Node.beq : Node → Node → Bool
  | .mk t1 x1 m1 c1, .mk t2 x2 m2 c2 =>
    t1 == t2 && x1 == x2 && decide (m1 = m2) && Node.beqList c1 c2

def Node.beqList : List Node → List Node → Bool
  | [], [] => true
  | a :: as, b :: bs => Node.beq a b && Node.beqList as bs
  | _, _ => false

end

mutual

def Node.beq_iff : (a b : Node) → (Node.beq a b = true ↔ a = b)
  | .mk t1 x1 m1 c1, .mk t2 x2 m2 c2 => by
    rw [Node.beq]
    simp only [Bool.and_eq_true, beq_iff_eq, decide_eq_true_eq, Node.mk.injEq]
    rw [Node.beqList_iff c1 c2]
    tauto

def Node.beqList_iff : (l1 l2 : List Node) → (Node.beqList l1 l2 = true ↔ l1 = l2)
  | [], [] => by simp [Node.beqList]
  | [], _ :: _ => by simp [Node.beqList]
  | _ :: _, [] => by simp [Node.beqList]
  | a :: as, b :: bs => by
    rw [Node.beqList]
    simp only [Bool.and_eq_true, List.cons.injEq]
    rw [Node.beq_iff a b, Node.beqList_iff as bs]

end

instance : BEq Node := ⟨Node.beq⟩

instance : LawfulBEq Node where
  eq_of_beq h := (Node.beq_iff _ _).mp h
  rfl := (Node.beq_iff _ _).mpr rfl

instance : DecidableEq Node :=
  fun a b => decidable_of_iff (Node.beq a b = true) (Node.beq_iff a b)

/-! ### Element mapper (`astAnalyzer.js`, class `ASTAnalyzer`) -/

/-- JavaScript truthiness of `metadata?.name` (`null`/`undefined` and the
empty string are falsy). -/
def isTruthyName (o : Option String) : Bool :=
  match o with
  | some s => decide (s ≠ "")
  | none => false

-- `findNodeByName`: depth-first search for the first node whose metadata
-- name strictly equals the given string.
mutual

def findNodeByName : Node → String → Option Node
  | .mk t x m cs, name =>
    if m.name = some name then some (.mk t x m cs)
    else findNodeByNameList cs name

def findNodeByNameList : List Node → String → Option Node
  | [], _ => none
  | c :: cs, name =>
    match findNodeByName c name with
    | some found => some found
    | none => findNodeByNameList cs name

end

-- `collectNamedNodes`: all nodes with a truthy metadata name, in
-- depth-first order.
mutual

def collectNamedNodes : Node → List Node
  | .mk t x m cs =>
    (if isTruthyName m.name then [Node.mk t x m cs] else []) ++
      collectNamedNodesList cs

def collectNamedNodesList : List Node → List Node
  | [] => []
  | c :: cs => collectNamedNodes c ++ collectNamedNodesList cs

end

-- `collectAllNodes`: every node of the tree, in depth-first order.
mutual

def collectAllNodes : Node → List Node
  | .mk t x m cs => Node.mk t x m cs :: collectAllNodesList cs

def collectAllNodesList : List Node → List Node
  | [] => []
  | c :: cs => collectAllNodes c ++ collectAllNodesList cs

end

/-- One row-update step of the `levenshteinDistance` dynamic program.
Arguments: current character of `str2`, remaining characters of `str1`,
remaining entries of the previous row (from column `j` on), the previous
row's entry at column `j-1` (diagonal), and the new row's entry at column
`j-1` (left neighbour). -/
def levNextRow (c : Char) : List Char → List ℕ → ℕ → ℕ → List ℕ
  | [], _, _, _ => []
  | _ :: _, [], _, _ => []
  | a :: as, p :: ps, diag, left =>
    let v := if c = a then diag else
      Nat.min (Nat.min (diag + 1) (left + 1)) (p + 1)
    v :: levNextRow c as ps p v

/-- `levenshteinDistance(str1, str2)`: the row-by-row matrix computation of
the source, one fold per character of `str2`. -/
def levenshteinDistance (str1 str2 : String) : ℕ :=
  let s1 := str1.toList
  let s2 := str2.toList
  let row0 := List.range (s1.length + 1)
  let lastRow := s2.enum.foldl
    (fun prev ic =>
      let i := ic.1 + 1
      match prev with
      | d :: rest => i :: levNextRow ic.2 s1 rest d i
      | [] => [i])
    row0
  lastRow.getLastD 0

/-- `calculateArraySimilarity`: overlap count over the longer length, with
the two empty-list special cases. -/
def calculateArraySimilarity (arr1 arr2 : List String) : ℚ :=
  if arr1.length = 0 ∧ arr2.length = 0 then 1
  else if arr1.length = 0 ∨ arr2.length = 0 then 0
  else
    let intersection := arr1.filter (fun item => arr2.contains item)
    (intersection.length : ℚ) / (max arr1.length arr2.length : ℕ)

/-- `calculateSimilarity`: early-returns `1.0` on identical (defaulted)
names, otherwise the weighted sum of name, type and parameter
similarity. -/
def calculateSimilarity (node1 node2 : Node) : ℚ :=
  let name1 := node1.metadata.name.getD ""
  let name2 := node2.metadata.name.getD ""
  if name1 = name2 then 1
  else
    let distance := levenshteinDistance name1 name2
    let maxLength := max name1.length name2.length
    let nameSimilarity : ℚ :=
      if 0 < maxLength then 1 - (distance : ℚ) / (maxLength : ℕ) else 0
    let typeSimilarity : ℚ := if node1.type = node2.type then 1 else 1 / 2
    let paramSimilarity :=
      calculateArraySimilarity node1.metadata.parameters node2.metadata.parameters
    nameSimilarity * (1 / 2) + typeSimilarity * (3 / 10) + paramSimilarity * (1 / 5)

/-- `findBestMatch`: fold carrying the best candidate so far together with
its similarity (`bestSimilarity` starts at `0`; strict `>` keeps the first
maximum). -/
def findBestMatch (targetNode : Node) (candidates : List Node) :
    Option (Node × ℚ) :=
  candidates.foldl
    (fun acc candidate =>
      let similarity := calculateSimilarity targetNode candidate
      let bestSimilarity := match acc with | some p => p.2 | none => 0
      if bestSimilarity < similarity then some (candidate, similarity) else acc)
    none

/-- The correspondence mapping: an insertion-ordered association list from
legacy nodes to refactored nodes (the JS `Map`). -/
abbrev Mapping := List (Node × Node)

/-- `Map.has` on the mapping. -/
def mapHas (m : Mapping) (k : Node) : Bool :=
  m.any (fun p => p.1 == k)

/-- `Map.set` on the mapping: update in place if the key exists, else
append. -/
def mapSet (m : Mapping) (k v : Node) : Mapping :=
  if mapHas m k then m.map (fun p => if p.1 == k then (k, v) else p)
  else m ++ [(k, v)]

/-- One iteration of the explicit-hints loop of `mapElements`: locate both
named nodes and record the pair when both exist. -/
def hintStep (legacyAST refactoredAST : Node) (m : Mapping)
    (h : String × String) : Mapping :=
  match findNodeByName legacyAST h.1, findNodeByName refactoredAST h.2 with
  | some legacyNode, some refactoredNode => mapSet m legacyNode refactoredNode
  | _, _ => m

/-- One iteration of the automatic-matching loop of `mapElements`: greedy
best match for a not-yet-mapped legacy node, accepted when the similarity
exceeds `0.7` (`mkRat 7 10`). -/
def autoStep (refactoredNodes : List Node) (m : Mapping)
    (legacyNode : Node) : Mapping :=
  if mapHas m legacyNode then m
  else
    match findBestMatch legacyNode refactoredNodes with
    | some best => if mkRat 7 10 < best.2 then mapSet m legacyNode best.1 else m
    | none => m

/-- `mapElements`: explicit hints first, then greedy best-match for every
not-yet-mapped named legacy node with acceptance threshold `> 0.7`. -/
def mapElements (legacyAST refactoredAST : Node)
    (mapHints : List (String × String)) : Mapping :=
  let afterHints := mapHints.foldl (hintStep legacyAST refactoredAST) []
  let legacyNodes := collectNamedNodes legacyAST
  let refactoredNodes := collectNamedNodes refactoredAST
  legacyNodes.foldl (autoStep refactoredNodes) afterHints

/-! ### Diff engine (`astAnalyzer.js`, class `ASTAnalyzer`) -/

/-- `areNodesEquivalent`: same kind, same text, same serialized metadata
(structural metadata equality coincides with the `JSON.stringify`
comparison, see `Metadata`). -/
def areNodesEquivalent (node1 node2 : Node) : Bool :=
  node1.type == node2.type && node1.text == node2.text &&
    decide (node1.metadata = node2.metadata)

/-- `getNodeChanges`: the human-readable change reasons recorded for a
modified pair. -/
def getNodeChanges (node1 node2 : Node) : List String :=
  (if node1.type ≠ node2.type then
    ["Type changed: " ++ node1.type ++ " -> " ++ node2.type] else []) ++
  (if node1.text ≠ node2.text then ["Content modified"] else []) ++
  (if node1.metadata ≠ node2.metadata then ["Metadata changed"] else [])

/-- One entry of the `modified` collection. -/
structure ModifiedEntry where
  legacy : Node
  refactored : Node
  changes : List String
deriving DecidableEq, Repr

/-- The three node collections of `computeASTChanges`. -/
structure Changes where
  added : List Node
  removed : List Node
  modified : List ModifiedEntry
deriving DecidableEq, Repr

/-- `findAddedNodes`: refactored nodes that are neither a mapping target
nor equivalent to some legacy node. -/
def findAddedNodes (legacyAST refactoredAST : Node) (mappings : Mapping) :
    List Node :=
  let legacyNodes := collectAllNodes legacyAST
  let refactoredNodes := collectAllNodes refactoredAST
  refactoredNodes.filter
    (fun refactoredNode =>
      let isMapped := (mappings.map (·.2)).contains refactoredNode
      let hasEquivalent := legacyNodes.any
        (fun legacyNode => areNodesEquivalent legacyNode refactoredNode)
      !isMapped && !hasEquivalent)

/-- `findRemovedNodes`: legacy nodes that are neither a mapping key nor
equivalent to some refactored node. -/
def findRemovedNodes (legacyAST refactoredAST : Node) (mappings : Mapping) :
    List Node :=
  let legacyNodes := collectAllNodes legacyAST
  let refactoredNodes := collectAllNodes refactoredAST
  legacyNodes.filter
    (fun legacyNode =>
      let isMapped := mapHas mappings legacyNode
      let hasEquivalent := refactoredNodes.any
        (fun refactoredNode => areNodesEquivalent legacyNode refactoredNode)
      !isMapped && !hasEquivalent)

/-- `findModifiedNodes`: every mapped pair that is not equivalent, with its
recorded change reasons. -/
def findModifiedNodes (mappings : Mapping) : List ModifiedEntry :=
  (mappings.filter
      (fun p => !areNodesEquivalent p.1 p.2)).map
    (fun p => ⟨p.1, p.2, getNodeChanges p.1 p.2⟩)

/-- `computeASTChanges`. -/
def computeASTChanges (legacyAST refactoredAST : Node) (mappings : Mapping) :
    Changes :=
  { added := findAddedNodes legacyAST refactoredAST mappings
    removed := findRemovedNodes legacyAST refactoredAST mappings
    modified := findModifiedNodes mappings }

/-- `generateASTSummary`. -/
def generateASTSummary (changes : Changes) : String :=
  String.intercalate ", "
    ((if 0 < changes.added.length then
        [toString changes.added.length ++ " nodes added"] else []) ++
     (if 0 < changes.removed.length then
        [toString changes.removed.length ++ " nodes removed"] else []) ++
     (if 0 < changes.modified.length then
        [toString changes.modified.length ++ " nodes modified"] else []))

/-- `calculateImpactScore`: `min(added*2 + removed*3 + modified*1, 100)`. -/
def calculateImpactScore (changes : Changes) : ℕ :=
  min (changes.added.length * 2 + changes.removed.length * 3 +
    changes.modified.length * 1) 100

/-- One change object of the external `diff.diffLines` output. -/
structure DiffChange where
  value : String
  count : ℕ
  added : Bool
  removed : Bool
deriving DecidableEq, Repr

/-- The per-file summary produced by `computeDiffs` (the `changes`
record). -/
structure FileChangeData where
  textDiff : String
  astDiffSummary : String
  impactScore : ℕ
  linesAdded : ℕ
  linesRemoved : ℕ
  linesModified : ℕ
deriving DecidableEq, Repr

/-- A per-file entry of the diff result. -/
structure FileChange where
  filePath : String
  changes : FileChangeData
deriving DecidableEq, Repr

/-- The aggregate counters of the diff result.  Note the field names: the
overall object carries numeric counts (`nodesAdded`, …), not node
collections. -/
structure Overall where
  nodesAdded : ℕ
  nodesRemoved : ℕ
  nodesModified : ℕ
  linesAdded : ℕ
  linesRemoved : ℕ
deriving DecidableEq, Repr

/-- The value returned by `computeDiffs`. -/
structure ASTDiffs where
  files : List FileChange
  overall : Overall
deriving DecidableEq, Repr

/-- `computeDiffs`.  The two functions of the external `diff` npm package
(`diff.diffLines` and `diff.createPatch 'main'`) are explicit parameters;
everything else is the source computation. -/
def computeDiffs (diffLines : String → String → List DiffChange)
    (createPatch : String → String → String)
    (legacyAST refactoredAST : Node) (mappings : Mapping) : ASTDiffs :=
  let textDiffs := diffLines legacyAST.text refactoredAST.text
  let lines := textDiffs.foldl
    (fun (ar : ℕ × ℕ) change =>
      if change.added then (ar.1 + change.count, ar.2)
      else if change.removed then (ar.1, ar.2 + change.count)
      else ar)
    (0, 0)
  let astChanges := computeASTChanges legacyAST refactoredAST mappings
  { files := [⟨"main",
      { textDiff := createPatch legacyAST.text refactoredAST.text
        astDiffSummary := generateASTSummary astChanges
        impactScore := calculateImpactScore astChanges
        linesAdded := lines.1
        linesRemoved := lines.2
        linesModified := astChanges.modified.length }⟩]
    overall :=
      { nodesAdded := astChanges.added.length
        nodesRemoved := astChanges.removed.length
        nodesModified := astChanges.modified.length
        linesAdded := lines.1
        linesRemoved := lines.2 } }

/-! ### Pattern classifier (`refactorClassifier.js`, class
`RefactorClassifier`) -/

/-- JavaScript `String.prototype.includes`: substring containment. -/
def strIncludes (hay needle : String) : Bool :=
  hay.toList.tails.any (fun t => needle.toList.isPrefixOf t)

/-- JavaScript `String.prototype.toLowerCase` (character-wise lowering, as
`String.toLower`, but defined structurally). -/
def strToLower (s : String) : String :=
  String.mk (s.toList.map Char.toLower)

/-- One match rule of the signature library (`{ type?, text?,
condition? }`). -/
structure Rule where
  type : Option String := none
  text : Option String := none
  condition : Option String := none
deriving DecidableEq, Repr

/-- One entry of the signature library: a refactor-technique type, its
match rules and its baseline level. -/
structure PatternGroup where
  type : String
  patterns : List Rule
  level : ℕ
deriving DecidableEq, Repr

/-- The static signature library (`initializePatterns`), in source
(insertion) order. -/
def classifierPatterns : List PatternGroup :=
  [ ⟨"Extract Method",
      [ { type := some "function_declaration", condition := some "isNew" },
        { type := some "method_declaration", condition := some "isNew" },
        { type := some "function_definition", condition := some "isNew" } ], 2⟩,
    ⟨"Inline Method",
      [ { type := some "function_declaration", condition := some "removed" },
        { type := some "method_declaration", condition := some "removed" },
        { type := some "function_definition", condition := some "removed" } ], 2⟩,
    ⟨"Rename Symbol",
      [ { condition := some "nameChanged" } ], 1⟩,
    ⟨"Move/Modularize",
      [ { type := some "import_statement", condition := some "isNew" },
        { type := some "import_declaration", condition := some "isNew" },
        { type := some "using_directive", condition := some "isNew" } ], 2⟩,
    ⟨"Service Extraction",
      [ { text := some "restcontroller", condition := some "isNew" },
        { text := some "controller", condition := some "isNew" },
        { text := some "service", condition := some "isNew" },
        { text := some "@restcontroller", condition := some "isNew" },
        { text := some "@controller", condition := some "isNew" },
        { text := some "@service", condition := some "isNew" },
        { text := some "express", condition := some "isNew" },
        { text := some "fastify", condition := some "isNew" },
        { text := some "flask", condition := some "isNew" },
        { text := some "django", condition := some "isNew" } ], 4⟩,
    ⟨"Layering",
      [ { text := some "repository", condition := some "isNew" },
        { text := some "dao", condition := some "isNew" },
        { text := some "datalayer", condition := some "isNew" },
        { text := some "repository", condition := some "isNew" },
        { text := some "@repository", condition := some "isNew" },
        { text := some "@dao", condition := some "isNew" } ], 3⟩,
    ⟨"Event-driven",
      [ { text := some "kafka", condition := some "isNew" },
        { text := some "rabbitmq", condition := some "isNew" },
        { text := some "sqs", condition := some "isNew" },
        { text := some "eventbus", condition := some "isNew" },
        { text := some "pubsub", condition := some "isNew" },
        { text := some "messaging", condition := some "isNew" } ], 4⟩,
    ⟨"Cloud Migration",
      [ { text := some "aws-sdk", condition := some "isNew" },
        { text := some "s3", condition := some "isNew" },
        { text := some "dynamodb", condition := some "isNew" },
        { text := some "lambda", condition := some "isNew" },
        { text := some "ec2", condition := some "isNew" },
        { text := some "rds", condition := some "isNew" },
        { text := some "sns", condition := some "isNew" },
        { text := some "sqs", condition := some "isNew" },
        { text := some "azure", condition := some "isNew" },
        { text := some "blob", condition := some "isNew" },
        { text := some "cosmosdb", condition := some "isNew" },
        { text := some "functions", condition := some "isNew" },
        { text := some "google-cloud", condition := some "isNew" },
        { text := some "gcs", condition := some "isNew" },
        { text := some "firestore", condition := some "isNew" },
        { text := some "cloud-functions", condition := some "isNew" } ], 3⟩,
    ⟨"Error Handling",
      [ { text := some "try", condition := some "isNew" },
        { text := some "catch", condition := some "isNew" },
        { text := some "exception", condition := some "isNew" },
        { text := some "error", condition := some "isNew" },
        { text := some "retry", condition := some "isNew" },
        { text := some "fallback", condition := some "isNew" } ], 2⟩,
    ⟨"Logging/Observability",
      [ { text := some "log4j", condition := some "isNew" },
        { text := some "slf4j", condition := some "isNew" },
        { text := some "winston", condition := some "isNew" },
        { text := some "bunyan", condition := some "isNew" },
        { text := some "logging", condition := some "isNew" },
        { text := some "logger", condition := some "isNew" },
        { text := some "metrics", condition := some "isNew" },
        { text := some "monitoring", condition := some "isNew" },
        { text := some "tracing", condition := some "isNew" } ], 2⟩,
    ⟨"Testing",
      [ { text := some "junit", condition := some "isNew" },
        { text := some "testng", condition := some "isNew" },
        { text := some "jest", condition := some "isNew" },
        { text := some "mocha", condition := some "isNew" },
        { text := some "pytest", condition := some "isNew" },
        { text := some "unittest", condition := some "isNew" },
        { text := some "mockito", condition := some "isNew" },
        { text := some "sinon", condition := some "isNew" },
        { text := some "@test", condition := some "isNew" },
        { text := some "describe", condition := some "isNew" },
        { text := some "it(", condition := some "isNew" },
        { text := some "test(", condition := some "isNew" } ], 2⟩,
    ⟨"Containerization",
      [ { text := some "dockerfile", condition := some "isNew" },
        { text := some "docker-compose", condition := some "isNew" },
        { text := some "kubernetes", condition := some "isNew" },
        { text := some "k8s", condition := some "isNew" },
        { text := some "helm", condition := some "isNew" },
        { text := some "container", condition := some "isNew" } ], 4⟩,
    ⟨"Infrastructure as Code",
      [ { text := some "terraform", condition := some "isNew" },
        { text := some "cloudformation", condition := some "isNew" },
        { text := some "arm", condition := some "isNew" },
        { text := some "pulumi", condition := some "isNew" },
        { text := some "cdk", condition := some "isNew" },
        { text := some "serverless", condition := some "isNew" } ], 4⟩,
    ⟨"Database Migration",
      [ { text := some "jpa", condition := some "isNew" },
        { text := some "hibernate", condition := some "isNew" },
        { text := some "mybatis", condition := some "isNew" },
        { text := some "sequelize", condition := some "isNew" },
        { text := some "typeorm", condition := some "isNew" },
        { text := some "sqlalchemy", condition := some "isNew" },
        { text := some "mongoose", condition := some "isNew" },
        { text := some "prisma", condition := some "isNew" },
        { text := some "migration", condition := some "isNew" },
        { text := some "schema", condition := some "isNew" } ], 3⟩ ]

/-- The duck-typed value `detectPatterns` receives: an added/removed node
exposes `type`, `text` and `metadata`; a modified-pair change object
exposes only `changes` (its other property reads yield `undefined`,
modelled as `none`). -/
structure CNode where
  type : Option String := none
  text : Option String := none
  metadata : Option Metadata := none
  changes : Option (List String) := none
deriving DecidableEq, Repr

/-- View of an added/removed `Node`. -/
def CNode.ofNode (n : Node) : CNode :=
  { type := some n.type, text := some n.text, metadata := some n.metadata }

/-- View of a modified-pair change object. -/
def CNode.ofModified (m : ModifiedEntry) : CNode :=
  { changes := some m.changes }

/-- `hasNameChange`: some recorded change reason mentions `name` or
`identifier` (case-insensitively). -/
def hasNameChange (node : CNode) : Bool :=
  match node.changes with
  | some cs => cs.any (fun change =>
      strIncludes (strToLower change) "name" || strIncludes (strToLower change) "identifier")
  | none => false

/-- `matchesPattern`. -/
def matchesPattern (node : CNode) (rule : Rule) (condition : String) : Bool :=
  let typeFail := match rule.type with
    | some t => node.type != some t
    | none => false
  if typeFail then false
  else
    let textFail := match rule.text with
      | some rt => !(strIncludes ((node.text.map strToLower).getD "") (strToLower rt))
      | none => false
    if textFail then false
    else
      match rule.condition with
      | some c =>
        if c = "isNew" then condition == "added"
        else if c = "removed" then condition == "removed"
        else if c = "nameChanged" then condition == "modified" && hasNameChange node
        else true
      | none => true

/-- `generateEvidence`. -/
def generateEvidence (node : CNode) (rule : Rule) : String :=
  String.intercalate " "
    ((match rule.text with
      | some rt => ["Found " ++ rt ++ " usage"]
      | none => []) ++
     (match node.metadata with
      | some m => match m.name with
        | some nm => if nm ≠ "" then ["in " ++ nm] else []
        | none => []
      | none => []) ++
     (match node.type with
      | some t => if t ≠ "" then ["(" ++ t ++ ")"] else []
      | none => []))

/-- `calculateConfidence`. -/
def calculateConfidence (node : CNode) (rule : Rule) : ℚ :=
  let base : ℚ := 1 / 2
  let c1 := base + (match rule.text with
    | some rt => match node.text with
      | some nt => if strIncludes (strToLower nt) (strToLower rt) then (3 / 10 : ℚ) else 0
      | none => 0
    | none => 0)
  let c2 := c1 + (match rule.type, node.type with
    | some rt, some nt => if rt = nt then (1 / 5 : ℚ) else 0
    | _, _ => 0)
  let c3 := c2 + (match node.metadata with
    | some m => if isTruthyName m.name then (1 / 10 : ℚ) else 0
    | none => 0)
  let c4 := c3 + (match node.metadata with
    | some m => if 0 < m.imports.length then (1 / 10 : ℚ) else 0
    | none => 0)
  min c4 1

/-- A raw detection / merged refactor tag. -/
structure Detection where
  type : String
  level : ℕ
  evidence : List String
  confidence : ℚ
deriving DecidableEq, Repr

/-- `detectPatterns`: every (group, rule) pair that matches, in library
order, each yielding a singleton-evidence detection. -/
def detectPatterns (node : CNode) (condition : String) : List Detection :=
  classifierPatterns.flatMap
    (fun pattern =>
      (pattern.patterns.filter (fun rule => matchesPattern node rule condition)).map
        (fun rule =>
          { type := pattern.type
            level := pattern.level
            evidence := [generateEvidence node rule]
            confidence := calculateConfidence node rule }))

/-- `analyzeFileChanges`: lexical rules against the raw file text diff,
then the import/dependency check against the AST-summary string. -/
def analyzeFileChanges (file : FileChange) : List Detection :=
  let textDetections :=
    if file.changes.textDiff ≠ "" then
      let diffContent := strToLower file.changes.textDiff
      classifierPatterns.flatMap
        (fun pattern =>
          pattern.patterns.filterMap
            (fun rule =>
              match rule.text with
              | some rt =>
                if strIncludes diffContent (strToLower rt) then
                  some { type := pattern.type
                         level := pattern.level
                         evidence := ["Found " ++ rt ++ " in file changes"]
                         confidence := (4 / 5 : ℚ) }
                else none
              | none => none))
    else []
  let summaryDetections :=
    if file.changes.astDiffSummary ≠ "" then
      let summary := strToLower file.changes.astDiffSummary
      if strIncludes summary "import" || strIncludes summary "dependency" then
        [{ type := "Move/Modularize"
           level := 2
           evidence := ["Import/dependency changes detected"]
           confidence := (7 / 10 : ℚ) }]
      else []
    else []
  textDetections ++ summaryDetections

/-- The iteration of `new Set(list)`: keep each element the first time it
is seen. -/
def setDedupGo {α : Type} [DecidableEq α] (seen : List α) : List α → List α
  | [] => []
  | a :: t =>
    if a ∈ seen then setDedupGo seen t
    else a :: setDedupGo (a :: seen) t

/-- First-occurrence de-duplication (`[...new Set(list)]`). -/
def setDedup {α : Type} [DecidableEq α] (l : List α) : List α :=
  setDedupGo [] l

/-- One step of the `mergeRefactorTypes` fold over the insertion-ordered
merged map: update the existing entry of the same type, else append. -/
def mergeStep (acc : List Detection) (refactor : Detection) : List Detection :=
  if acc.any (fun e => e.type == refactor.type) then
    acc.map
      (fun existing =>
        if existing.type == refactor.type then
          { existing with
            level := max existing.level refactor.level
            evidence := setDedup (existing.evidence ++ refactor.evidence)
            confidence := (existing.confidence + refactor.confidence) / 2 }
        else existing)
  else acc ++ [refactor]

/-- Stable insertion by descending level. -/
def insertByLevelDesc (x : Detection) : List Detection → List Detection
  | [] => [x]
  | y :: t => if y.level ≤ x.level then x :: y :: t else y :: insertByLevelDesc x t

/-- Stable sort by descending level, modelling the ES2019-stable
`Array.prototype.sort` with comparator `(a, b) => b.level - a.level`. -/
def sortByLevelDesc : List Detection → List Detection
  | [] => []
  | x :: t => insertByLevelDesc x (sortByLevelDesc t)

/-- `mergeRefactorTypes`. -/
def mergeRefactorTypes (refactorTypes : List Detection) : List Detection :=
  sortByLevelDesc (refactorTypes.foldl mergeStep [])

/-- The per-type view of one `mergeStep`: merging one raw detection into
the (optional) entry already accumulated for its type. -/
def mergeInto (o : Option Detection) (r : Detection) : Option Detection :=
  match o with
  | some existing => some
      { existing with
        level := max existing.level r.level
        evidence := setDedup (existing.evidence ++ r.evidence)
        confidence := (existing.confidence + r.confidence) / 2 }
  | none => some r

/-- The fields `classify` reads from its argument:
`overall?.addedNodes`, `overall?.removedNodes`, `overall?.modifiedNodes`
and `files`. -/
structure ClassifierInput where
  addedNodes : List Node
  removedNodes : List Node
  modifiedNodes : List ModifiedEntry
  files : List FileChange
deriving DecidableEq, Repr

/-- The view `classify` takes of the object produced by `computeDiffs`:
`classify` iterates `astDiffs.overall?.addedNodes`, `removedNodes` and
`modifiedNodes`, but `computeDiffs` stores only numeric counts under the
different names `nodesAdded`, `nodesRemoved`, `nodesModified`, so the
optional-chained loops iterate nothing and only `files` is visible. -/
def ClassifierInput.ofASTDiffs (d : ASTDiffs) : ClassifierInput :=
  { addedNodes := [], removedNodes := [], modifiedNodes := [], files := d.files }

/-- `classify` (the `language` argument is unused by the source). -/
def classify (astDiffs : ClassifierInput) (_language : String) : List Detection :=
  let fromAdded := astDiffs.addedNodes.flatMap
    (fun node => detectPatterns (CNode.ofNode node) "added")
  let fromRemoved := astDiffs.removedNodes.flatMap
    (fun node => detectPatterns (CNode.ofNode node) "removed")
  let fromModified := astDiffs.modifiedNodes.flatMap
    (fun change => detectPatterns (CNode.ofModified change) "modified")
  let fromFiles := astDiffs.files.flatMap analyzeFileChanges
  mergeRefactorTypes (fromAdded ++ fromRemoved ++ fromModified ++ fromFiles)

/-! ### Risk scanner (`refactorClassifier.js`, class `SecurityScanner`) -/

/-- A risk flag (`{ type, severity, description, suggestion }`). -/
structure RiskFlag where
  type : String
  severity : String
  description : String
  suggestion : String
deriving DecidableEq, Repr

/-- The deduplication key of `deduplicateFlags`:
`` `${flag.type}-${flag.severity}-${flag.description}` ``. -/
def flagKey (flag : RiskFlag) : String :=
  flag.type ++ "-" ++ flag.severity ++ "-" ++ flag.description

/-- The `filter`-with-`seen`-set loop of `deduplicateFlags`. -/
def dedupFlagsGo (seen : List String) : List RiskFlag → List RiskFlag
  | [] => []
  | flag :: rest =>
    if flagKey flag ∈ seen then dedupFlagsGo seen rest
    else flag :: dedupFlagsGo (flagKey flag :: seen) rest

/-- `deduplicateFlags`. -/
def deduplicateFlags (flags : List RiskFlag) : List RiskFlag :=
  dedupFlagsGo [] flags

/-- `SecurityScanner.scan`.  The three regex-pattern families
(`scanSecurity`, `scanLicenses`, `scanCompatibility`) are lexical scans
over the source text; they are passed as explicit function parameters, so
every theorem below holds for arbitrary behaviour of the three families.
The control flow — run all three families only when `includeSecurityScan`
is true, then deduplicate — is the source's. -/
def scan (scanSecurity scanLicenses scanCompatibility : String → List RiskFlag)
    (source : String) (_language : String) (includeSecurityScan : Bool) :
    List RiskFlag :=
  let riskFlags :=
    if includeSecurityScan then
      scanSecurity source ++ scanLicenses source ++ scanCompatibility source
    else []
  deduplicateFlags riskFlags

/-! ### Impact scorer (`impactScorer.js`, class `ImpactScorer`) -/

/-- The metric record produced by `calculateMetrics`, restricted to the
fields consumed by scoring (`newDependencies`, extracted from evidence by
regular expressions, is never read by `calculateOverallScore` and is
omitted). -/
structure ScoreMetrics where
  totalLinesChanged : ℕ
  astNodesChanged : ℕ
  filesModified : ℕ
  newInfrastructureComponents : ℕ
  architecturalChanges : ℕ
  cyclomaticComplexityDelta : ℤ
  testCoverageDelta : ℤ
deriving DecidableEq, Repr

/-- The infrastructure tag types counted by `calculateMetrics`. -/
def infrastructureTypes : List String :=
  ["Service Extraction", "Cloud Migration", "Containerization",
   "Infrastructure as Code", "Event-driven"]

/-- The "complex" tag types of `calculateComplexityDelta`. -/
def complexTypes : List String :=
  ["Service Extraction", "Cloud Migration", "Event-driven",
   "Infrastructure as Code"]

/-- The simplifying tag types of `calculateComplexityDelta`. -/
def simplifyingTypes : List String :=
  ["Extract Method", "Inline Method", "Rename Symbol"]

/-- `calculateComplexityDelta` (its `astDiffs` argument is unused by the
source). -/
def calculateComplexityDelta (_astDiffs : ASTDiffs)
    (refactorTypes : List Detection) : ℤ :=
  let d1 := refactorTypes.foldl
    (fun delta refactor =>
      if complexTypes.contains refactor.type then delta + (refactor.level : ℤ) * 2
      else delta + (refactor.level : ℤ))
    0
  let d2 := refactorTypes.foldl
    (fun delta refactor =>
      if simplifyingTypes.contains refactor.type then delta - (refactor.level : ℤ)
      else delta)
    d1
  max d2 (-10)

/-- `calculateTestCoverageDelta`. -/
def calculateTestCoverageDelta (refactorTypes : List Detection) : ℤ :=
  let delta := refactorTypes.foldl
    (fun delta refactor =>
      if refactor.type = "Testing" then delta + (refactor.level : ℤ) * 10
      else if 3 ≤ refactor.level then delta - 5
      else delta)
    0
  max (min delta 50) (-50)

/-- `calculateMetrics`.  Note `totalLinesChanged`: the source also adds
`astDiffs.overall.linesModified || 0`, but the overall record has no
`linesModified` field, so that summand is always `0`. -/
def calculateMetrics (astDiffs : ASTDiffs) (refactorTypes : List Detection) :
    ScoreMetrics :=
  { totalLinesChanged :=
      astDiffs.overall.linesAdded + astDiffs.overall.linesRemoved + 0
    astNodesChanged :=
      astDiffs.overall.nodesAdded + astDiffs.overall.nodesRemoved +
        astDiffs.overall.nodesModified
    filesModified := astDiffs.files.length
    newInfrastructureComponents :=
      (refactorTypes.filter
        (fun refactor => infrastructureTypes.contains refactor.type)).length
    architecturalChanges :=
      (refactorTypes.filter (fun refactor => 4 ≤ refactor.level)).length
    cyclomaticComplexityDelta := calculateComplexityDelta astDiffs refactorTypes
    testCoverageDelta := calculateTestCoverageDelta refactorTypes }

/-- The logistic curve of `normalizeLinesChanged`:
`100 / (1 + e^(-(x-200)/100))`. -/
noncomputable def logisticLines (x : ℝ) : ℝ :=
  100 / (1 + Real.exp (-(x - 200) / 100))

/-- The logistic curve of `normalizeASTNodes`:
`100 / (1 + e^(-(x-50)/25))`. -/
noncomputable def logisticNodes (x : ℝ) : ℝ :=
  100 / (1 + Real.exp (-(x - 50) / 25))

/-- `normalizeLinesChanged`: zero is special-cased to `0`; otherwise the
logistic value capped at 100. -/
noncomputable def normalizeLinesChanged (lines : ℝ) : ℝ :=
  if lines = 0 then 0 else min (logisticLines lines) 100

/-- `normalizeASTNodes`: zero is special-cased to `0`; otherwise the
logistic value capped at 100. -/
noncomputable def normalizeASTNodes (nodes : ℝ) : ℝ :=
  if nodes = 0 then 0 else min (logisticNodes nodes) 100

/-- `normalizeInfrastructure`: `min(components * 20, 100)`. -/
def normalizeInfrastructure (components : ℕ) : ℕ :=
  min (components * 20) 100

/-- `normalizeTestCoverage`: `min(max((delta + 50) * 2, 0), 100)`. -/
def normalizeTestCoverage (delta : ℤ) : ℤ :=
  min (max ((delta + 50) * 2) 0) 100

/-- `normalizeComplexity`: `min(max((10 - delta) * 5, 0), 100)`. -/
def normalizeComplexity (delta : ℤ) : ℤ :=
  min (max ((10 - delta) * 5) 0) 100

/-- `calculateOverallScore`: the weighted sum of the five normalized
metrics, clamped to `[0, 100]` and rounded (`Math.round` rounds half
towards `+∞`, exactly `round` on `ℝ`). -/
noncomputable def calculateOverallScore (metrics : ScoreMetrics) : ℤ :=
  let score : ℝ :=
    normalizeLinesChanged (metrics.totalLinesChanged : ℝ) * 0.30 +
    normalizeASTNodes (metrics.astNodesChanged : ℝ) * 0.25 +
    (normalizeInfrastructure metrics.newInfrastructureComponents : ℝ) * 0.20 +
    (normalizeTestCoverage metrics.testCoverageDelta : ℝ) * 0.15 +
    (normalizeComplexity metrics.cyclomaticComplexityDelta : ℝ) * 0.10
  round (min (max score 0) 100)

/-- The `levelThresholds` table `{0: 0, 1: 20, 2: 40, 3: 60, 4: 80}`. -/
def levelThresholds (level : ℕ) : ℤ :=
  match level with
  | 1 => 20
  | 2 => 40
  | 3 => 60
  | 4 => 80
  | _ => 0

/-- `determineLevel`. -/
def determineLevel (score : ℤ) : ℕ :=
  if levelThresholds 4 ≤ score then 4
  else if levelThresholds 3 ≤ score then 3
  else if levelThresholds 2 ≤ score then 2
  else if levelThresholds 1 ≤ score then 1
  else 0

/-- `ImpactScorer.calculate`, restricted to the two scalar outputs
`overallScore` and `level`. -/
noncomputable def scorerCalculate (astDiffs : ASTDiffs)
    (refactorTypes : List Detection) : ℤ × ℕ :=
  let metrics := calculateMetrics astDiffs refactorTypes
  let overallScore := calculateOverallScore metrics
  (overallScore, determineLevel overallScore)

/-! ### Spec-side reference definition (for the refinement claim about
`calculateSimilarity`) -/

/-- Modelled from the spec, §4.2: the similarity as the spec words it —
always the weighted sum `0.5 * nameSimilarity + 0.3 * typeSimilarity +
0.2 * parameterSimilarity`, with `nameSimilarity = 1` for identical names,
else `1 - distance / longer length` (`0` if both names empty), type
similarity `1.0` on matching kinds else `0.5`, and the same parameter
overlap.  To be compared against the source's `calculateSimilarity`. -/
def specSimilarity (node1 node2 : Node) : ℚ :=
  let name1 := node1.metadata.name.getD ""
  let name2 := node2.metadata.name.getD ""
  let nameSimilarity : ℚ :=
    if name1 = name2 then 1
    else if 0 < max name1.length name2.length then
      1 - (levenshteinDistance name1 name2 : ℚ) /
        ((max name1.length name2.length : ℕ) : ℚ)
    else 0
  let typeSimilarity : ℚ := if node1.type = node2.type then 1 else 1 / 2
  let paramSimilarity :=
    calculateArraySimilarity node1.metadata.parameters node2.metadata.parameters
  nameSimilarity * (1 / 2) + typeSimilarity * (3 / 10) + paramSimilarity * (1 / 5)

/-- The running average `((c1 + c2)/2 + c3)/2 + …` that
`mergeRefactorTypes` maintains for merged confidences. -/
def runningAverage : List ℚ → ℚ
  | [] => 0
  | c :: cs => cs.foldl (fun acc x => (acc + x) / 2) c

/-! ### Concrete scenario inputs

The trees below are normalized-node inputs as the external tree-sitter
parsers would hand them to the analyzer; the `diffLines`/`createPatch`
values model the output of the external `diff` npm package on the given
pair of texts. -/

/-- Legacy function `a` (named node). -/
def nodeA : Node :=
  Node.mk "function_declaration" "function a()\x7breturn 1;\x7d"
    ⟨some "a", [], []⟩ []

/-- Legacy function `b` (named node). -/
def nodeB : Node :=
  Node.mk "function_declaration" "function b()\x7breturn 2;\x7d"
    ⟨some "b", [], []⟩ []

/-- Refactored function `c` (named node). -/
def nodeC : Node :=
  Node.mk "function_declaration" "function c()\x7breturn 3;\x7d"
    ⟨some "c", [], []⟩ []

/-- Legacy tree containing the two named functions `a` and `b`. -/
def hintLegacyTree : Node :=
  Node.mk "program"
    "function a()\x7breturn 1;\x7d\nfunction b()\x7breturn 2;\x7d"
    ⟨none, [], []⟩ [nodeA, nodeB]

/-- Refactored tree containing the single named function `c`. -/
def hintRefactoredTree : Node :=
  Node.mk "program" "function c()\x7breturn 3;\x7d" ⟨none, [], []⟩ [nodeC]

/-- A `function_declaration` named `f` (for the similarity claim). -/
def fnDeclF : Node :=
  Node.mk "function_declaration" "function f()\x7b\x7d" ⟨some "f", [], []⟩ []

/-- A `method_declaration` also named `f` but of a different kind. -/
def methodDeclF : Node :=
  Node.mk "method_declaration" "f()\x7b\x7d" ⟨some "f", [], []⟩ []

/-- The legacy `computeTotal` function node of the rename scenario. -/
def computeTotalNode : Node :=
  Node.mk "function_declaration"
    "function computeTotal(items)\x7breturn 1;\x7d"
    ⟨some "computeTotal", [], []⟩ []

/-- The refactored `calculateTotal` function node (identical body). -/
def calculateTotalNode : Node :=
  Node.mk "function_declaration"
    "function calculateTotal(items)\x7breturn 1;\x7d"
    ⟨some "calculateTotal", [], []⟩ []

/-- Legacy tree of the rename scenario. -/
def renameLegacyTree : Node :=
  Node.mk "program" "function computeTotal(items)\x7breturn 1;\x7d"
    ⟨none, [], []⟩ [computeTotalNode]

/-- Refactored tree of the rename scenario. -/
def renameRefactoredTree : Node :=
  Node.mk "program" "function calculateTotal(items)\x7breturn 1;\x7d"
    ⟨none, [], []⟩ [calculateTotalNode]

/-- `diff.diffLines` output for the rename scenario: one removed and one
added line run. -/
def diffLinesRename : String → String → List DiffChange := fun _ _ =>
  [⟨"function computeTotal(items)\x7breturn 1;\x7d\n", 1, false, true⟩,
   ⟨"function calculateTotal(items)\x7breturn 1;\x7d\n", 1, true, false⟩]

/-- The 67-character separator row of a `diff.createPatch` header. -/
def patchSeparator : String :=
  String.mk (List.replicate 67 (Char.ofNat 61))

/-- `diff.createPatch` output for the rename scenario. -/
def createPatchRename : String → String → String := fun _ _ =>
  "Index: main\n" ++ patchSeparator ++
    "\n--- main\n+++ main\n@@ -1,1 +1,1 @@\n-function computeTotal(items)\x7breturn 1;\x7d\n+function calculateTotal(items)\x7breturn 1;\x7d\n"

/-- The added function node of the extract-method scenario. -/
def helperFnNode : Node :=
  Node.mk "function_declaration" "function helper()\x7b\x7d"
    ⟨some "helper", [], []⟩ []

/-- Legacy tree of the extract-method scenario (no function). -/
def extractLegacyTree : Node :=
  Node.mk "program" "const x = 1;" ⟨none, [], []⟩ []

/-- Refactored tree of the extract-method scenario: adds
`function helper()`. -/
def extractRefactoredTree : Node :=
  Node.mk "program" "const x = 1;\nfunction helper()\x7b\x7d"
    ⟨none, [], []⟩ [helperFnNode]

/-- `diff.diffLines` output for the extract-method scenario. -/
def diffLinesExtract : String → String → List DiffChange := fun _ _ =>
  [⟨"const x = 1;\n", 1, false, false⟩,
   ⟨"function helper()\x7b\x7d", 1, true, false⟩]

/-- `diff.createPatch` output for the extract-method scenario. -/
def createPatchExtract : String → String → String := fun _ _ =>
  "Index: main\n" ++ patchSeparator ++
    "\n--- main\n+++ main\n@@ -1,1 +1,2 @@\n const x = 1;\n+function helper()\x7b\x7d\n"

/-- The pipeline diff of the extract-method scenario. -/
def extractDiffs : ASTDiffs :=
  computeDiffs diffLinesExtract createPatchExtract
    extractLegacyTree extractRefactoredTree
    (mapElements extractLegacyTree extractRefactoredTree [])

/-- The named `function_declaration` node of the identical-sources
scenario. -/
def addFnNode : Node :=
  Node.mk "function_declaration" "function add(a,b)\x7breturn a+b;\x7d"
    ⟨some "add", [], []⟩
    [Node.mk "identifier" "add" ⟨none, [], []⟩ [],
     Node.mk "formal_parameters" "(a,b)" ⟨none, [], []⟩ [],
     Node.mk "statement_block" "\x7breturn a+b;\x7d" ⟨none, [], []⟩ []]

/-- The identical-sources tree: the parse of
`function add(a,b){return a+b;}` as normalized nodes. -/
def addFnTree : Node :=
  Node.mk "program" "function add(a,b)\x7breturn a+b;\x7d" ⟨none, [], []⟩
    [addFnNode]

/-- `diff.diffLines` on two identical texts: one unchanged run. -/
def diffLinesIdentical : String → String → List DiffChange := fun a _ =>
  [⟨a, 1, false, false⟩]

/-- `diff.createPatch` on two identical texts: header only, no hunks. -/
def createPatchIdentical : String → String → String := fun _ _ =>
  "Index: main\n" ++ patchSeparator ++ "\n--- main\n+++ main\n"

/-- The pipeline diff of the identical-sources scenario. -/
def identicalDiffs : ASTDiffs :=
  computeDiffs diffLinesIdentical createPatchIdentical addFnTree addFnTree
    (mapElements addFnTree addFnTree [])

/-- The pipeline tag list of the identical-sources scenario. -/
def identicalTags : List Detection :=
  classify (ClassifierInput.ofASTDiffs identicalDiffs) "javascript"

/-! ## Helper lemmas -/

lemma dedupFlagsGo_keys (seen : List String) (l : List RiskFlag) :
    (dedupFlagsGo seen l).Pairwise (fun a b => flagKey a ≠ flagKey b) ∧
    ∀ f ∈ dedupFlagsGo seen l, flagKey f ∉ seen := by
  induction l generalizing seen with
  | nil => simp [dedupFlagsGo]
  | cons f rest ih =>
    rw [dedupFlagsGo]
    split_ifs with h
    · exact ih seen
    · refine ⟨List.Pairwise.cons ?_ (ih (flagKey f :: seen)).1, ?_⟩
      · intro b hb hkey
        exact (ih (flagKey f :: seen)).2 b hb (hkey ▸ List.mem_cons_self _ _)
      · intro g hg
        rcases List.mem_cons.mp hg with rfl | hg
        · exact h
        · intro hseen
          exact (ih (flagKey f :: seen)).2 g hg (List.mem_cons_of_mem _ hseen)

/-! ## Claim theorems -/

/-- **C6.** The level assigned by the scorer is a monotone non-decreasing
step function of the overall score with thresholds `{0, 20, 40, 60, 80}`
mapping to levels `{0, 1, 2, 3, 4}`: `determineLevel` maps the score
sequence `0,19,20,39,40,59,60,79,80,100` to `0,0,1,1,2,2,3,3,4,4`, and is
monotone for all pairs of scores. -/
theorem determineLevel_step_monotone :
    (∀ s1 s2 : ℤ, s1 ≤ s2 → determineLevel s1 ≤ determineLevel s2) ∧
    ([0, 19, 20, 39, 40, 59, 60, 79, 80, 100] : List ℤ).map determineLevel =
      [0, 0, 1, 1, 2, 2, 3, 3, 4, 4] := by
  constructor
  · intro s1 s2 h
    simp only [determineLevel, levelThresholds]
    split_ifs <;> omega
  · decide

/-- Witness for `determineLevel_step_monotone` at the concrete pair
`(5, 25)`. -/
theorem determineLevel_step_monotone_witness :
    (5 : ℤ) ≤ 25 ∧ determineLevel 5 ≤ determineLevel 25 :=
  ⟨by decide, determineLevel_step_monotone.1 5 25 (by decide)⟩

/-- **C8.** For every source text and language, and for arbitrary
behaviour of the three pattern families, `scan` with
`includeSecurityScan = false` returns the empty list of risk flags (none
of the three families contributes). -/
theorem scan_disabled_empty
    (scanSecurity scanLicenses scanCompatibility : String → List RiskFlag)
    (source language : String) :
    scan scanSecurity scanLicenses scanCompatibility source language false =
      [] := rfl

/-- **C9.** In every list of risk flags returned by `scan`, no two flags
share the same combination of kind (`type`), severity and description:
`deduplicateFlags` keys on exactly those three fields. -/
theorem scan_result_flags_pairwise_distinct
    (scanSecurity scanLicenses scanCompatibility : String → List RiskFlag)
    (source language : String) (includeSecurityScan : Bool) :
    (scan scanSecurity scanLicenses scanCompatibility source language
        includeSecurityScan).Pairwise
      (fun a b => ¬(a.type = b.type ∧ a.severity = b.severity ∧
        a.description = b.description)) := by
  have h := (dedupFlagsGo_keys []
    (if includeSecurityScan then
      scanSecurity source ++ scanLicenses source ++ scanCompatibility source
    else [])).1
  refine List.Pairwise.imp ?_ h
  intro a b hk hab
  exact hk (by unfold flagKey; rw [hab.1, hab.2.1, hab.2.2])

/-- **C10.** The two normalizers special-case zero exactly
(`normalizeLinesChanged 0 = 0`, `normalizeASTNodes 0 = 0`) although both
logistic curves are strictly positive at `0`; for every non-zero (in
particular every positive) input the logistic value capped at 100 is
returned. -/
theorem normalizers_zero_special_case :
    normalizeLinesChanged 0 = 0 ∧ normalizeASTNodes 0 = 0 ∧
    0 < logisticLines 0 ∧ 0 < logisticNodes 0 ∧
    (∀ x : ℝ, 0 < x →
      normalizeLinesChanged x = min (logisticLines x) 100 ∧
      normalizeASTNodes x = min (logisticNodes x) 100) := by
  refine ⟨by simp [normalizeLinesChanged], by simp [normalizeASTNodes],
    ?_, ?_, ?_⟩
  · unfold logisticLines; positivity
  · unfold logisticNodes; positivity
  · intro x hx
    exact ⟨by simp [normalizeLinesChanged, hx.ne'],
      by simp [normalizeASTNodes, hx.ne']⟩

/-- Witness for `normalizers_zero_special_case` at the positive input
`1`. -/
theorem normalizers_zero_special_case_witness :
    (0 : ℝ) < 1 ∧ normalizeLinesChanged 1 = min (logisticLines 1) 100 :=
  ⟨by norm_num, (normalizers_zero_special_case.2.2.2.2 1 (by norm_num)).1⟩

/-- **C5 counterexample.** Two nodes with identical names but different
kinds score `1.0` (the early return), not the spec's weighted sum, which
gives `0.85` here: the claim "two nodes with identical names but different
kinds do not score 1.0" is false of `calculateSimilarity`. -/
theorem calculateSimilarity_same_name_different_kind :
    calculateSimilarity fnDeclF methodDeclF = 1 ∧
    specSimilarity fnDeclF methodDeclF = 17 / 20 ∧
    fnDeclF.type ≠ methodDeclF.type := by
  have h1 : ("function_declaration" : String) ≠ "method_declaration" := by decide
  refine ⟨?_, ?_, by decide⟩
  · norm_num [calculateSimilarity, fnDeclF, methodDeclF, Node.metadata]
  · norm_num [specSimilarity, calculateArraySimilarity, fnDeclF, methodDeclF,
      Node.type, Node.metadata, h1]

/-- **C5 amended.** `calculateSimilarity` returns `1.0` outright whenever
the two (defaulted) names are identical — regardless of kind or
parameters — and only when the names differ does it equal the spec's
weighted sum `0.5 * nameSimilarity + 0.3 * typeSimilarity +
0.2 * parameterSimilarity` (`specSimilarity`). -/
theorem calculateSimilarity_eq_cases (node1 node2 : Node) :
    (node1.metadata.name.getD "" = node2.metadata.name.getD "" →
      calculateSimilarity node1 node2 = 1) ∧
    (node1.metadata.name.getD "" ≠ node2.metadata.name.getD "" →
      calculateSimilarity node1 node2 = specSimilarity node1 node2) := by
  constructor
  · intro h; simp [calculateSimilarity, h]
  · intro h; simp [calculateSimilarity, specSimilarity, h]

/-- Witness for `calculateSimilarity_eq_cases`: the identical-name case at
`(fnDeclF, fnDeclF)` and the distinct-name case at the rename-scenario
pair. -/
theorem calculateSimilarity_eq_cases_witness :
    calculateSimilarity fnDeclF fnDeclF = 1 ∧
    calculateSimilarity computeTotalNode calculateTotalNode =
      specSimilarity computeTotalNode calculateTotalNode :=
  ⟨(calculateSimilarity_eq_cases fnDeclF fnDeclF).1 (by decide),
   (calculateSimilarity_eq_cases computeTotalNode calculateTotalNode).2
     (by decide)⟩

lemma foldlPreserve {α β : Type} {P : β → Prop} {f : β → α → β}
    (hf : ∀ b a, P b → P (f b a)) :
    ∀ (l : List α) (b : β), P b → P (l.foldl f b) := by
  intro l
  induction l with
  | nil => intro b hb; exact hb
  | cons a t ih => intro b hb; exact ih _ (hf b a hb)

lemma mapSet_keys_nodup (m : Mapping) (k v : Node)
    (h : (m.map Prod.fst).Nodup) : ((mapSet m k v).map Prod.fst).Nodup := by
  unfold mapSet
  split_ifs with hh
  · have heq : (m.map (fun p => if p.1 == k then (k, v) else p)).map Prod.fst
        = m.map Prod.fst := by
      rw [List.map_map]
      apply List.map_congr_left
      intro p hp
      by_cases hpk : p.1 = k
      · simp [hpk]
      · simp [hpk]
    rw [heq]; exact h
  · rw [List.map_append]
    refine List.Nodup.append h (List.nodup_singleton _) ?_
    intro x hx hx2
    simp only [List.map_cons, List.map_nil, List.mem_singleton] at hx2
    subst hx2
    apply hh
    unfold mapHas
    rw [List.any_eq_true]
    rcases List.mem_map.mp hx with ⟨p, hp, hpk⟩
    exact ⟨p, hp, by simp [hpk]⟩

/-- **C1 counterexample.** Two hint entries naming the same refactored
node make two distinct legacy nodes map to the same target: with hints
`{a ↦ c, b ↦ c}`, `mapElements` returns a mapping whose two entries both
target `nodeC`, so the mapping is not injective. -/
theorem mapElements_two_hints_same_target :
    mapElements hintLegacyTree hintRefactoredTree [("a", "c"), ("b", "c")] =
      [(nodeA, nodeC), (nodeB, nodeC)] ∧ nodeA ≠ nodeB := by decide

/-- **C1 amended.** The mapping built by `mapElements` is a function on
legacy nodes — no legacy node is the key of two entries — but it is not
injective: a refactored node can be the target of two distinct legacy
nodes (see the counterexample). -/
theorem mapElements_keys_nodup (legacyAST refactoredAST : Node)
    (mapHints : List (String × String)) :
    ((mapElements legacyAST refactoredAST mapHints).map Prod.fst).Nodup := by
  simp only [mapElements]
  refine foldlPreserve (P := fun (m : Mapping) => (m.map Prod.fst).Nodup) ?_ _ _
    (foldlPreserve (P := fun (m : Mapping) => (m.map Prod.fst).Nodup) ?_ _ _ (by simp))
  · intro m legacyNode hm
    unfold autoStep
    by_cases h : mapHas m legacyNode
    · simpa [h] using hm
    · rcases hfb : findBestMatch legacyNode (collectNamedNodes refactoredAST)
        with _ | ⟨n, s⟩
      · simpa [h, hfb] using hm
      · by_cases hs : mkRat 7 10 < s
        · simpa [h, hfb, hs] using mapSet_keys_nodup m legacyNode n hm
        · simpa [h, hfb, hs] using hm
  · intro m hint hm
    unfold hintStep
    rcases hl : findNodeByName legacyAST hint.1 with _ | ln
    · simpa [hl] using hm
    · rcases hr : findNodeByName refactoredAST hint.2 with _ | rn
      · simpa [hl, hr] using hm
      · simpa [hl, hr] using mapSet_keys_nodup m ln rn hm

/-- **C2 (code-bug evidence).** In the extract-method scenario the added
collection computed by the diff engine contains a `function_declaration`
node, and `classify` does emit an Extract Method tag when that collection
is handed to it directly — but through the real pipeline (`computeDiffs`
stores only the numeric counts `nodesAdded`/`nodesRemoved`/`nodesModified`
while `classify` reads the absent list fields
`addedNodes`/`removedNodes`/`modifiedNodes`, see
`ClassifierInput.ofASTDiffs`) the classifier sees no node collections and
returns no Extract Method tag. -/
theorem classify_added_collection_mismatch :
    ((computeASTChanges extractLegacyTree extractRefactoredTree
        (mapElements extractLegacyTree extractRefactoredTree [])).added.any
      (fun n => n.type == "function_declaration")) = true ∧
    "Extract Method" ∈
      (classify
        { addedNodes := (computeASTChanges extractLegacyTree
            extractRefactoredTree
            (mapElements extractLegacyTree extractRefactoredTree [])).added
          removedNodes := []
          modifiedNodes := []
          files := [] } "javascript").map Detection.type ∧
    (classify (ClassifierInput.ofASTDiffs extractDiffs) "javascript").map
      Detection.type = [] := by decide

set_option maxRecDepth 8000 in
/-- **C3 (code-bug evidence).** In the rename scenario the mapper does
link `computeTotal` to `calculateTotal` (similarity `23/28 > 0.7`) and the
diff does mark the pair modified — but the recorded change reasons are
exactly `["Content modified", "Metadata changed"]`, neither of which
contains "name" or "identifier", so `hasNameChange` is false; and through
the pipeline the classifier emits no tag at all (in particular no
Rename Symbol). -/
theorem rename_scenario_reasons_and_no_rename_tag :
    calculateSimilarity computeTotalNode calculateTotalNode = 23 / 28 ∧
    mkRat 7 10 < (23 / 28 : ℚ) ∧
    mapElements renameLegacyTree renameRefactoredTree [] =
      [(computeTotalNode, calculateTotalNode)] ∧
    (computeASTChanges renameLegacyTree renameRefactoredTree
        (mapElements renameLegacyTree renameRefactoredTree [])).modified =
      [⟨computeTotalNode, calculateTotalNode,
        ["Content modified", "Metadata changed"]⟩] ∧
    hasNameChange (CNode.ofModified ⟨computeTotalNode, calculateTotalNode,
      ["Content modified", "Metadata changed"]⟩) = false ∧
    classify (ClassifierInput.ofASTDiffs (computeDiffs diffLinesRename
        createPatchRename renameLegacyTree renameRefactoredTree
        (mapElements renameLegacyTree renameRefactoredTree []))) "javascript"
      = [] := by
  have hne : ("computeTotal" : String) ≠ "calculateTotal" := by decide
  have hd : levenshteinDistance "computeTotal" "calculateTotal" = 5 := by decide
  have hl1 : ("computeTotal" : String).length = 12 := by decide
  have hl2 : ("calculateTotal" : String).length = 14 := by decide
  have hsim : calculateSimilarity computeTotalNode calculateTotalNode =
      23 / 28 := by
    norm_num [calculateSimilarity, calculateArraySimilarity, computeTotalNode,
      calculateTotalNode, Node.metadata, Node.type, hne, hd, hl1, hl2]
  have hthr : mkRat 7 10 < (23 / 28 : ℚ) := by
    rw [Rat.mkRat_eq_div]; norm_num
  have hbest : findBestMatch computeTotalNode [calculateTotalNode] =
      some (calculateTotalNode, 23 / 28) := by
    simp only [findBestMatch, List.foldl_cons, List.foldl_nil, hsim]
    rw [if_pos (by norm_num)]
  have hmap : mapElements renameLegacyTree renameRefactoredTree [] =
      [(computeTotalNode, calculateTotalNode)] := by
    have hcl : collectNamedNodes renameLegacyTree = [computeTotalNode] := by
      decide
    have hcr : collectNamedNodes renameRefactoredTree = [calculateTotalNode] :=
      by decide
    simp only [mapElements, List.foldl_nil, hcl, hcr, List.foldl_cons, autoStep]
    rw [if_neg (by decide)]
    simp only [hbest]
    rw [if_pos hthr]
    decide
  refine ⟨hsim, hthr, hmap, ?_, by decide, ?_⟩
  · rw [hmap]; decide
  · rw [hmap]; decide

lemma identicalTags_nil : identicalTags = [] := by decide

lemma identicalMetrics_eq :
    calculateMetrics identicalDiffs identicalTags = ⟨0, 0, 1, 0, 0, 0, 0⟩ := by
  decide

lemma identicalScore_eq :
    calculateOverallScore (calculateMetrics identicalDiffs identicalTags) =
      20 := by
  rw [identicalMetrics_eq]
  unfold calculateOverallScore
  have h1 : normalizeTestCoverage 0 = 100 := by decide
  have h2 : normalizeComplexity 0 = 50 := by decide
  have h3 : normalizeInfrastructure 0 = 0 := by decide
  simp only [h1, h2, h3, normalizeLinesChanged, normalizeASTNodes]
  norm_num

/-- **C4 counterexample.** For identical legacy and refactored sources
(the `function add(a,b){return a+b;}` scenario), the pipeline's overall
score is not 0 and the level is not 0. -/
theorem identical_sources_score_not_zero :
    calculateOverallScore (calculateMetrics identicalDiffs identicalTags)
      ≠ 0 ∧
    determineLevel (calculateOverallScore
      (calculateMetrics identicalDiffs identicalTags)) ≠ 0 := by
  rw [identicalScore_eq]
  exact ⟨by decide, by decide⟩

/-- **C4 amended.** For identical legacy and refactored sources the
analysis yields empty added, removed and modified sets, but an
`overallScore` of `20` and a `level` of `1`: the neutral test-coverage
delta `0` normalizes to `100` and the neutral complexity delta `0` to
`50`, contributing `0.15·100 + 0.10·50 = 20` points. -/
theorem identical_sources_outcome :
    computeASTChanges addFnTree addFnTree (mapElements addFnTree addFnTree [])
      = ⟨[], [], []⟩ ∧
    calculateOverallScore (calculateMetrics identicalDiffs identicalTags)
      = 20 ∧
    determineLevel (calculateOverallScore
      (calculateMetrics identicalDiffs identicalTags)) = 1 := by
  refine ⟨by decide, identicalScore_eq, ?_⟩
  rw [identicalScore_eq]
  decide

/-! ### Helper lemmas for the merge/sort specification -/

lemma mem_setDedupGo {α : Type} [DecidableEq α] :
    ∀ (seen l : List α) (x : α),
      x ∈ setDedupGo seen l ↔ x ∈ l ∧ x ∉ seen := by
  intro seen l
  induction l generalizing seen with
  | nil => simp [setDedupGo]
  | cons a t ih =>
    intro x
    rw [setDedupGo]
    split_ifs with h
    · rw [ih]
      simp only [List.mem_cons]
      constructor
      · exact fun ⟨hx, hs⟩ => ⟨Or.inr hx, hs⟩
      · rintro ⟨rfl | hx, hs⟩
        · exact absurd h hs
        · exact ⟨hx, hs⟩
    · simp only [List.mem_cons, ih, List.mem_cons]
      constructor
      · rintro (rfl | ⟨hx, hs⟩)
        · exact ⟨Or.inl rfl, h⟩
        · exact ⟨Or.inr hx, fun hx2 => hs (Or.inr hx2)⟩
      · rintro ⟨rfl | hx, hs⟩
        · exact Or.inl rfl
        · by_cases hxa : x = a
          · exact Or.inl hxa
          · refine Or.inr ⟨hx, fun hc => ?_⟩
            rcases hc with h1 | h2
            · exact hxa h1
            · exact hs h2

lemma setDedupGo_congr {α : Type} [DecidableEq α] :
    ∀ (l seen1 seen2 : List α), (∀ a : α, a ∈ seen1 ↔ a ∈ seen2) →
      setDedupGo seen1 l = setDedupGo seen2 l := by
  intro l
  induction l with
  | nil => intro _ _ _; rfl
  | cons a t ih =>
    intro seen1 seen2 hmem
    rw [setDedupGo, setDedupGo]
    by_cases h : a ∈ seen1
    · rw [if_pos h, if_pos ((hmem a).mp h)]
      exact ih _ _ hmem
    · rw [if_neg h, if_neg (fun h2 => h ((hmem a).mpr h2))]
      congr 1
      apply ih
      intro b
      simp only [List.mem_cons, hmem b]

lemma setDedupGo_append {α : Type} [DecidableEq α] :
    ∀ (a : List α) (seen b : List α),
      setDedupGo seen (a ++ b) =
        setDedupGo seen a ++ setDedupGo (a ++ seen) b := by
  intro a
  induction a with
  | nil => intro seen b; rfl
  | cons x t ih =>
    intro seen b
    simp only [List.cons_append, setDedupGo, List.append_eq]
    by_cases h : x ∈ seen
    · rw [if_pos h, if_pos h, ih]
      have hcg : setDedupGo (x :: (t ++ seen)) b = setDedupGo (t ++ seen) b := by
        apply setDedupGo_congr
        intro c
        simp only [List.mem_cons, List.mem_append]
        constructor
        · rintro (rfl | hc)
          · exact Or.inr h
          · exact hc
        · intro hc; exact Or.inr hc
      rw [hcg]
    · rw [if_neg h, if_neg h, ih (x :: seen) b, List.cons_append]
      have hcg : setDedupGo (x :: (t ++ seen)) b = setDedupGo (t ++ x :: seen) b := by
        apply setDedupGo_congr
        intro c
        simp only [List.mem_cons, List.mem_append]
        tauto
      rw [hcg]

lemma setDedupGo_nodup {α : Type} [DecidableEq α] :
    ∀ (l seen : List α), (setDedupGo seen l).Nodup := by
  intro l
  induction l with
  | nil => intro seen; simp [setDedupGo]
  | cons a t ih =>
    intro seen
    rw [setDedupGo]
    split_ifs with h
    · exact ih seen
    · refine List.Pairwise.cons ?_ (ih (a :: seen))
      intro b hb
      have := (mem_setDedupGo (a :: seen) t b).mp hb
      intro he
      exact this.2 (he ▸ List.mem_cons_self _ _)

lemma setDedupGo_eq_self {α : Type} [DecidableEq α] :
    ∀ (l seen : List α), l.Nodup → (∀ a ∈ l, a ∉ seen) →
      setDedupGo seen l = l := by
  intro l
  induction l with
  | nil => intro seen _ _; rfl
  | cons a t ih =>
    intro seen hnd hdisj
    rw [setDedupGo, if_neg (hdisj a (List.mem_cons_self _ _))]
    congr 1
    refine ih (a :: seen) (List.Nodup.of_cons hnd) ?_
    intro b hb
    intro hbc
    rcases List.mem_cons.mp hbc with rfl | hbs
    · exact (List.nodup_cons.mp hnd).1 hb
    · exact hdisj b (List.mem_cons_of_mem _ hb) hbs

lemma setDedup_eq_self_of_nodup {α : Type} [DecidableEq α] (l : List α)
    (h : l.Nodup) : setDedup l = l :=
  setDedupGo_eq_self l [] h (by simp)

lemma setDedup_append_left {α : Type} [DecidableEq α] (a b : List α) :
    setDedup (setDedup a ++ b) = setDedup (a ++ b) := by
  unfold setDedup
  rw [setDedupGo_append, setDedupGo_append]
  have h1 : setDedupGo ([] : List α) (setDedupGo [] a) = setDedupGo [] a :=
    setDedupGo_eq_self _ [] (setDedupGo_nodup a []) (by simp)
  rw [h1]
  congr 1
  apply setDedupGo_congr
  intro c
  simp only [List.append_nil, mem_setDedupGo]
  simp

lemma evidenceFold (rest : List Detection) :
    ∀ a : List String,
      rest.foldl (fun acc d => setDedup (acc ++ d.evidence)) (setDedup a) =
        setDedup (a ++ rest.flatMap Detection.evidence) := by
  induction rest with
  | nil => intro a; simp
  | cons d rs ih =>
    intro a
    simp only [List.foldl_cons, List.flatMap_cons]
    rw [setDedup_append_left, ih (a ++ d.evidence), List.append_assoc]

lemma mergeStep_map_type (acc : List Detection) (r : Detection) :
    (mergeStep acc r).map Detection.type =
      if acc.any (fun e => e.type == r.type) then acc.map Detection.type
      else acc.map Detection.type ++ [r.type] := by
  unfold mergeStep
  split_ifs with h
  · rw [List.map_map]
    apply List.map_congr_left
    intro e _
    dsimp only [Function.comp_apply]
    split <;> rfl
  · simp

lemma mergeStep_types_nodup (acc : List Detection) (r : Detection)
    (h : (acc.map Detection.type).Nodup) :
    ((mergeStep acc r).map Detection.type).Nodup := by
  rw [mergeStep_map_type]
  split_ifs with hany
  · exact h
  · refine List.Nodup.append h (List.nodup_singleton _) ?_
    intro x hx hx2
    simp only [List.mem_singleton] at hx2
    subst hx2
    apply hany
    rw [List.any_eq_true]
    rcases List.mem_map.mp hx with ⟨e, he, het⟩
    exact ⟨e, he, by simp [het]⟩

lemma mem_foldl_mergeStep_types :
    ∀ (l acc : List Detection) (t : String),
      t ∈ (l.foldl mergeStep acc).map Detection.type ↔
        t ∈ acc.map Detection.type ∨ t ∈ l.map Detection.type := by
  intro l
  induction l with
  | nil => simp
  | cons r rs ih =>
    intro acc t
    rw [List.foldl_cons, ih, mergeStep_map_type]
    split_ifs with hany
    · have hr : r.type ∈ acc.map Detection.type := by
        rcases List.any_eq_true.mp hany with ⟨e, he, het⟩
        exact List.mem_map.mpr ⟨e, he, eq_of_beq het⟩
      simp only [List.map_cons, List.mem_cons]
      constructor
      · rintro (h | h)
        · exact Or.inl h
        · exact Or.inr (Or.inr h)
      · rintro (h | rfl | h)
        · exact Or.inl h
        · exact Or.inl hr
        · exact Or.inr h
    · simp only [List.mem_append, List.mem_singleton, List.map_cons,
        List.mem_cons]
      tauto

lemma foldl_mergeStep_types_nodup (l : List Detection) :
    ((l.foldl mergeStep []).map Detection.type).Nodup :=
  foldlPreserve
    (P := fun acc : List Detection => (acc.map Detection.type).Nodup)
    (fun acc r h => mergeStep_types_nodup acc r h) l [] (by simp)

lemma find?_mergeStep (acc : List Detection) (r : Detection) (t : String) :
    (mergeStep acc r).find? (fun d => d.type == t) =
      if r.type = t then mergeInto (acc.find? (fun d => d.type == t)) r
      else acc.find? (fun d => d.type == t) := by
  unfold mergeStep
  by_cases hany : acc.any (fun e => e.type == r.type)
  · rw [if_pos hany, List.find?_map]
    have hpf : ((fun d : Detection => d.type == t) ∘
        (fun existing : Detection =>
          if existing.type == r.type then
            { existing with
              level := max existing.level r.level
              evidence := setDedup (existing.evidence ++ r.evidence)
              confidence := (existing.confidence + r.confidence) / 2 }
          else existing)) = fun d : Detection => d.type == t := by
      funext e
      dsimp only [Function.comp_apply]
      split <;> rfl
    rw [hpf]
    by_cases hrt : r.type = t
    · rw [if_pos hrt]
      have hsome : (acc.find? (fun d => d.type == t)).isSome := by
        rw [List.find?_isSome]
        rcases List.any_eq_true.mp hany with ⟨e, he, het⟩
        exact ⟨e, he, by rw [eq_of_beq het, hrt]; exact beq_self_eq_true t⟩
      rcases hfe : acc.find? (fun d => d.type == t) with _ | e0
      · rw [hfe] at hsome; simp at hsome
      · have hp := List.find?_some hfe
        have he0 : e0.type = t := eq_of_beq hp
        rw [hfe]
        simp only [Option.map_some']
        rw [if_pos (by rw [he0, hrt]; exact beq_self_eq_true t)]
        rfl
    · rw [if_neg hrt]
      rcases hfe : acc.find? (fun d => d.type == t) with _ | e0
      · rw [hfe]; rfl
      · have hp := List.find?_some hfe
        have he0 : e0.type = t := eq_of_beq hp
        rw [hfe]
        simp only [Option.map_some']
        rw [if_neg (by simp [he0]; exact fun h => hrt h.symm)]
  · rw [if_neg hany, List.find?_append]
    by_cases hrt : r.type = t
    · have hnone : acc.find? (fun d => d.type == t) = none := by
        rw [List.find?_eq_none]
        intro e he hq
        apply hany
        rw [List.any_eq_true]
        exact ⟨e, he, by rw [eq_of_beq hq, hrt]; exact beq_self_eq_true _⟩
      rw [hnone, if_pos hrt]
      rw [List.find?_cons_of_pos (p := fun d : Detection => d.type == t) _
        (by show (r.type == t) = true; rw [hrt]; exact beq_self_eq_true t)]
      rfl
    · rw [if_neg hrt]
      have : ([r].find? (fun d => d.type == t)) = none := by
        rw [List.find?_eq_none]
        intro e he hq
        simp only [List.mem_singleton] at he
        subst he
        exact hrt (eq_of_beq hq)
      rw [this, Option.or_none]

lemma find?_foldl_mergeStep :
    ∀ (l acc : List Detection) (t : String),
      (l.foldl mergeStep acc).find? (fun d => d.type == t) =
        (l.filter (fun d => d.type == t)).foldl mergeInto
          (acc.find? (fun d => d.type == t)) := by
  intro l
  induction l with
  | nil => intro acc t; rfl
  | cons r rs ih =>
    intro acc t
    rw [List.foldl_cons, ih, find?_mergeStep, List.filter_cons]
    by_cases hrt : r.type = t
    · rw [if_pos hrt, if_pos (by rw [hrt]; exact beq_self_eq_true t),
        List.foldl_cons]
    · rw [if_neg hrt, if_neg (by simp [hrt])]

lemma foldl_mergeInto_some (ds : List Detection) :
    ∀ e : Detection,
      ds.foldl mergeInto (some e) = some
        { type := e.type
          level := ds.foldl (fun a d => max a d.level) e.level
          evidence := ds.foldl (fun a d => setDedup (a ++ d.evidence))
            e.evidence
          confidence := ds.foldl (fun a d => (a + d.confidence) / 2)
            e.confidence } := by
  induction ds with
  | nil => intro e; rfl
  | cons d rest ih =>
    intro e
    simp only [List.foldl_cons, mergeInto]
    rw [ih]

lemma find?_eq_of_mem_nodup :
    ∀ (l : List Detection) (g : Detection),
      (l.map Detection.type).Nodup → g ∈ l →
      l.find? (fun d => d.type == g.type) = some g := by
  intro l
  induction l with
  | nil => intro g _ hg; cases hg
  | cons a rest ih =>
    intro g hnd hg
    rcases List.mem_cons.mp hg with rfl | hg2
    · exact List.find?_cons_of_pos (p := fun d : Detection => d.type == g.type) _
        (beq_self_eq_true _)
    · have hane : ¬(a.type == g.type) = true := by
        intro he
        have h1 : g.type ∈ rest.map Detection.type :=
          List.mem_map.mpr ⟨g, hg2, rfl⟩
        rw [List.map_cons, List.nodup_cons] at hnd
        exact hnd.1 (eq_of_beq he ▸ h1)
      rw [List.find?_cons_of_neg (p := fun d : Detection => d.type == g.type) _ hane]
      exact ih g (by rw [List.map_cons, List.nodup_cons] at hnd; exact hnd.2)
        hg2

lemma insertByLevelDesc_perm (x : Detection) :
    ∀ l : List Detection, (insertByLevelDesc x l).Perm (x :: l) := by
  intro l
  induction l with
  | nil => exact List.Perm.refl _
  | cons y t ih =>
    rw [insertByLevelDesc]
    split_ifs with h
    · exact List.Perm.refl _
    · exact (List.Perm.cons y ih).trans (List.Perm.swap x y t)

lemma sortByLevelDesc_perm : ∀ l : List Detection,
    (sortByLevelDesc l).Perm l := by
  intro l
  induction l with
  | nil => exact List.Perm.refl _
  | cons x t ih =>
    rw [sortByLevelDesc]
    exact (insertByLevelDesc_perm x (sortByLevelDesc t)).trans
      (List.Perm.cons x ih)

lemma insertByLevelDesc_pairwise (x : Detection) :
    ∀ l : List Detection, l.Pairwise (fun a b => b.level ≤ a.level) →
      (insertByLevelDesc x l).Pairwise (fun a b => b.level ≤ a.level) := by
  intro l
  induction l with
  | nil => intro _; exact List.pairwise_singleton _ _
  | cons y t ih =>
    intro h
    rw [insertByLevelDesc]
    rcases List.pairwise_cons.mp h with ⟨hy, ht⟩
    split_ifs with hxy
    · refine List.Pairwise.cons ?_ h
      intro b hb
      rcases List.mem_cons.mp hb with rfl | hbt
      · exact hxy
      · exact le_trans (hy b hbt) hxy
    · refine List.Pairwise.cons ?_ (ih ht)
      intro b hb
      have hb2 := (insertByLevelDesc_perm x t).mem_iff.mp hb
      rcases List.mem_cons.mp hb2 with rfl | hbt
      · exact le_of_not_le hxy
      · exact hy b hbt

lemma sortByLevelDesc_pairwise : ∀ l : List Detection,
    (sortByLevelDesc l).Pairwise (fun a b => b.level ≤ a.level) := by
  intro l
  induction l with
  | nil => exact List.Pairwise.nil
  | cons x t ih =>
    rw [sortByLevelDesc]
    exact insertByLevelDesc_pairwise x _ ih

lemma detectPatterns_evidence (node : CNode) (condition : String) :
    ∀ d ∈ detectPatterns node condition, d.evidence.Nodup := by
  intro d hd
  simp only [detectPatterns, List.mem_flatMap, List.mem_map,
    List.mem_filter] at hd
  obtain ⟨g, _, r, _, rfl⟩ := hd
  exact List.nodup_singleton _

lemma analyzeFileChanges_evidence (file : FileChange) :
    ∀ d ∈ analyzeFileChanges file, d.evidence.Nodup := by
  intro d hd
  unfold analyzeFileChanges at hd
  rcases List.mem_append.mp hd with h | h
  · split_ifs at h with h1
    · simp only [List.mem_flatMap, List.mem_filterMap] at h
      obtain ⟨g, _, r, _, hf⟩ := h
      rcases hrt : r.text with _ | rt
      · rw [hrt] at hf
        exact absurd hf (by simp)
      · simp only [hrt] at hf
        split_ifs at hf with h2
        rw [Option.some_inj] at hf
        subst hf
        exact List.nodup_singleton _
    · simp at h
  · split_ifs at h with h1
    · dsimp only at h
      split_ifs at h with h2
      · simp only [List.mem_singleton] at h
        subst h
        exact List.nodup_singleton _
      · simp at h
    · simp at h

lemma levels_foldl_closed (d0 : Detection) (rest : List Detection) :
    ((d0 :: rest).map Detection.level).foldl max 0 =
      rest.foldl (fun a d => max a d.level) d0.level := by
  rw [List.foldl_map, List.foldl_cons, Nat.zero_max]

lemma conf_foldl_closed (d0 : Detection) (rest : List Detection) :
    runningAverage ((d0 :: rest).map Detection.confidence) =
      rest.foldl (fun a d => (a + d.confidence) / 2) d0.confidence := by
  rw [List.map_cons, runningAverage, List.foldl_map]

lemma evidence_foldl_closed (d0 : Detection) (rest : List Detection)
    (h : d0.evidence.Nodup) :
    setDedup ((d0 :: rest).flatMap Detection.evidence) =
      rest.foldl (fun a d => setDedup (a ++ d.evidence)) d0.evidence := by
  conv_rhs => rw [← setDedup_eq_self_of_nodup d0.evidence h]
  rw [evidenceFold, List.flatMap_cons]

/-- **C7.** `mergeRefactorTypes` produces exactly one tag per distinct
type (the output types are duplicate-free and are exactly the input
types); each output tag's level is the maximum of the merged raw
detections' levels, its evidence is their first-occurrence-ordered union
without duplicates, and its confidence is the running average of their
confidences in order; and the output is sorted by level descending.  The
hypothesis — every raw detection carries duplicate-free evidence — is
satisfied by every raw detection the classifier produces, since both
`detectPatterns` and `analyzeFileChanges` emit singleton evidence lists
(final two conjuncts). -/
theorem mergeRefactorTypes_spec (refactorTypes : List Detection)
    (hev : ∀ d ∈ refactorTypes, d.evidence.Nodup) :
    ((mergeRefactorTypes refactorTypes).map Detection.type).Nodup ∧
    (∀ t : String,
      t ∈ (mergeRefactorTypes refactorTypes).map Detection.type ↔
        t ∈ refactorTypes.map Detection.type) ∧
    (∀ g ∈ mergeRefactorTypes refactorTypes,
      g.level = ((refactorTypes.filter
        (fun d => d.type == g.type)).map Detection.level).foldl max 0 ∧
      g.evidence = setDedup ((refactorTypes.filter
        (fun d => d.type == g.type)).flatMap Detection.evidence) ∧
      g.confidence = runningAverage ((refactorTypes.filter
        (fun d => d.type == g.type)).map Detection.confidence)) ∧
    (mergeRefactorTypes refactorTypes).Pairwise
      (fun a b => b.level ≤ a.level) ∧
    (∀ (node : CNode) (condition : String),
      ∀ d ∈ detectPatterns node condition, d.evidence.Nodup) ∧
    (∀ file : FileChange, ∀ d ∈ analyzeFileChanges file,
      d.evidence.Nodup) := by
  have hperm : (mergeRefactorTypes refactorTypes).Perm
      (refactorTypes.foldl mergeStep []) :=
    sortByLevelDesc_perm (refactorTypes.foldl mergeStep [])
  have hnd : ((refactorTypes.foldl mergeStep []).map Detection.type).Nodup :=
    foldl_mergeStep_types_nodup refactorTypes
  refine ⟨?_, ?_, ?_, ?_, detectPatterns_evidence, analyzeFileChanges_evidence⟩
  · exact ((hperm.map Detection.type).nodup_iff).mpr hnd
  · intro t
    rw [(hperm.map Detection.type).mem_iff, mem_foldl_mergeStep_types]
    simp
  · intro g hg
    have hgm : g ∈ refactorTypes.foldl mergeStep [] := hperm.mem_iff.mp hg
    have hfind := find?_eq_of_mem_nodup _ g hnd hgm
    rw [find?_foldl_mergeStep] at hfind
    simp only [List.find?_nil] at hfind
    rcases hfs : refactorTypes.filter (fun d => d.type == g.type)
      with _ | ⟨d0, rest⟩
    · rw [hfs] at hfind
      simp at hfind
    · rw [hfs, List.foldl_cons,
        show mergeInto none d0 = some d0 from rfl,
        foldl_mergeInto_some, Option.some_inj] at hfind
      have hd0mem : d0 ∈ refactorTypes := by
        have hmem : d0 ∈ refactorTypes.filter (fun d => d.type == g.type) := by
          rw [hfs]
          exact List.mem_cons_self _ _
        exact List.mem_of_mem_filter hmem
      have hd0nodup : d0.evidence.Nodup := hev d0 hd0mem
      have hlv : g.level = rest.foldl (fun a d => max a d.level) d0.level := by
        rw [← hfind]
      have hed : g.evidence =
          rest.foldl (fun a d => setDedup (a ++ d.evidence)) d0.evidence := by
        rw [← hfind]
      have hcf : g.confidence =
          rest.foldl (fun a d => (a + d.confidence) / 2) d0.confidence := by
        rw [← hfind]
      refine ⟨?_, ?_, ?_⟩
      · rw [hfs, levels_foldl_closed]
        exact hlv
      · rw [hfs, evidence_foldl_closed d0 rest hd0nodup]
        exact hed
      · rw [hfs, conf_foldl_closed]
        exact hcf
  · exact sortByLevelDesc_pairwise (refactorTypes.foldl mergeStep [])

/-- Witness for `mergeRefactorTypes_spec` at a concrete three-detection
list containing a duplicated type. -/
theorem mergeRefactorTypes_spec_witness :
    ((mergeRefactorTypes
      [⟨"Error Handling", 2, ["e1"], 1⟩, ⟨"Testing", 2, ["e2"], 1⟩,
       ⟨"Error Handling", 3, ["e3"], 1⟩]).map Detection.type).Nodup ∧
    (mergeRefactorTypes
      [⟨"Error Handling", 2, ["e1"], 1⟩, ⟨"Testing", 2, ["e2"], 1⟩,
       ⟨"Error Handling", 3, ["e3"], 1⟩]).Pairwise
      (fun a b => b.level ≤ a.level) :=
  ⟨(mergeRefactorTypes_spec
      [⟨"Error Handling", 2, ["e1"], 1⟩, ⟨"Testing", 2, ["e2"], 1⟩,
       ⟨"Error Handling", 3, ["e3"], 1⟩] (by decide)).1,
   (mergeRefactorTypes_spec
      [⟨"Error Handling", 2, ["e1"], 1⟩, ⟨"Testing", 2, ["e2"], 1⟩,
       ⟨"Error Handling", 3, ["e3"], 1⟩] (by decide)).2.2.2.1⟩

end RefactorLens
